import Mathlib

/-!
Shallow embedding of the PostgreSQL Thing repository
(`things/postgres/things.go` of wind-c/mainflux) and proofs about its
error handling, atomicity and codec behaviour.

The relational store is external: each repository operation is embedded
as a pure function over an explicit environment describing the outcomes
the store produces for the statements the operation issues (exec errors,
scanned rows, affected-row counts), together with an explicit visible
database state for the operations whose claims speak about visibility.
JSON metadata is modelled by an inductive value type; Go values that
`json.Marshal` rejects (channels, functions, NaN floats) are modelled by
a dedicated `unsupported` constructor.
-/

namespace Mainflux

/-- JSON-like value, the model of `interface\x7b\x7d` values stored in a
`things.Metadata` map.  `unsupported` stands for a Go value that
`encoding/json` cannot marshal. -/
inductive JVal where
  | null
  | jbool (b : Bool)
  | jnum (n : Int)
  | jstr (s : String)
  | jarr (xs : List JVal)
  | jobj (fs : List (String × JVal))
  | unsupported
deriving Repr

/-- Model of the Go map type `things.Metadata = map[string]interface\x7b\x7d`.
A Go map is unordered and has no duplicate keys; the association list is
its canonical representative, so the map-to-map round trip through
marshal/unmarshal is the identity on this representation. -/
abbrev MetaMap := List (String × JVal)

mutual

/-- `true` iff `encoding/json` can marshal the value (no `unsupported`
anywhere inside). -/
def jsonSerializable : JVal → Bool
  | .null => true
  | .jbool _ => true
  | .jnum _ => true
  | .jstr _ => true
  | .jarr xs => jsonSerializableList xs
  | .jobj fs => jsonSerializableFields fs
  | .unsupported => false

def jsonSerializableList : List JVal → Bool
  | [] => true
  | v :: vs => jsonSerializable v && jsonSerializableList vs

def jsonSerializableFields : List (String × JVal) → Bool
  | [] => true
  | (_, v) :: fs => jsonSerializable v && jsonSerializableFields fs

end

/-- `pq.Error`: a PostgreSQL driver error carrying a classifiable code
name (`pqErr.Code.Name()`). -/
structure PqError where
  codeName : String
deriving Repr, DecidableEq

/-- A raw error produced by the store / database layer.  The Go code
distinguishes `*pq.Error` (by type assertion), `sql.ErrNoRows`, and any
other error. -/
inductive StoreError where
  | pq (e : PqError)
  | noRows
  | other (tag : String)
deriving Repr, DecidableEq

/-- The postgres error code names the source matches on
(`things/postgres/things.go` lines 18-23). -/
def errDuplicate : String := "unique_violation"

def errFK : String := "foreign_key_violation"

def errInvalid : String := "invalid_text_representation"

def errTruncation : String := "string_data_right_truncation"

/-- The domain error kinds of the `things` package referenced by the
repository. -/
inductive ErrKind where
  | MalformedEntity
  | Conflict
  | NotFound
  | CreateEntity
  | UpdateEntity
  | SelectEntity
  | RemoveEntity
  | ViewEntity
deriving Repr, DecidableEq

/-- A Go error value as the repository returns it: either a raw
store/json error, a bare domain sentinel such as `things.ErrNotFound`,
or an `errors.Wrap(kind, cause)` wrapper. -/
inductive GoErr where
  | store (e : StoreError)
  | encodeFail
  | decodeFail
  | bareKind (k : ErrKind)
  | wrapped (k : ErrKind) (cause : GoErr)
deriving Repr, DecidableEq

/-- The outermost domain kind of an error — what a caller branching on
error kind observes.  Raw unwrapped errors have no kind. -/
def GoErr.kind : GoErr → Option ErrKind
  | .bareKind k => some k
  | .wrapped k _ => some k
  | _ => none

/-- `things.Thing`.  `Metadata` is a Go map, which may be nil (`none`)
or a (possibly empty) map (`some fs`). -/
structure Thing where
  ID : String
  Owner : String
  Name : String
  Key : String
  Metadata : Option MetaMap
deriving Repr

/-- The bytes held in `dbThing.Metadata` (a Go `[]byte`): well-formed
JSON text, bytes that do not parse as JSON, or a nil slice (the zero
value, as in `UpdateKey`). -/
inductive DBMeta where
  | json (v : JVal)
  | malformed
  | nilBytes
deriving Repr

/-- `dbThing`: the row representation read from / written to the
`things` table. -/
structure DbThing where
  ID : String
  Owner : String
  Name : String
  Key : String
  Metadata : DBMeta
deriving Repr

/-- `json.Marshal` applied to a metadata map: fails iff some value is
not serializable, otherwise produces the serialized object. -/
def json_Marshal (m : MetaMap) : Except GoErr DBMeta :=
  if jsonSerializableFields m then .ok (.json (.jobj m)) else .error .encodeFail

/-- `json.Unmarshal` of the stored bytes into a `map[string]interface\x7b\x7d`:
a JSON object yields the (non-nil) map, JSON `null` leaves the map nil,
and anything else — a non-object JSON value, non-JSON bytes, or a nil
byte slice — is an unmarshalling error. -/
def json_Unmarshal_map : DBMeta → Except GoErr (Option MetaMap)
  | .json (.jobj fs) => .ok (some fs)
  | .json .null => .ok none
  | .json _ => .error .decodeFail
  | .malformed => .error .decodeFail
  | .nilBytes => .error .decodeFail

/-- `len(th.Metadata)` for a Go map: 0 on nil. -/
def metaLen : Option MetaMap → Nat
  | none => 0
  | some fs => fs.length

/-- The metadata-encoding step of `toDBThing` (`things.go` lines
345-352): `data` defaults to the serialized empty object `"\x7b\x7d"` and is
overwritten by the marshalled map when the map is non-empty; a marshal
failure is wrapped with `things.ErrMalformedEntity`. -/
def encodeMetadata (th : Thing) : Except GoErr DBMeta :=
  if metaLen th.Metadata > 0 then
    match json_Marshal (th.Metadata.getD []) with
    | .error e => .error (.wrapped .MalformedEntity e)
    | .ok b => .ok b
  else .ok (.json (.jobj []))

/-- `toDBThing` (`things.go` lines 344-361). -/
def toDBThing (th : Thing) : Except GoErr DbThing :=
  match encodeMetadata th with
  | .error e => .error e
  | .ok data => .ok ⟨th.ID, th.Owner, th.Name, th.Key, data⟩

/-- `toThing` (`things.go` lines 363-376): unmarshal the stored
metadata, wrapping a failure with `things.ErrMalformedEntity`. -/
def toThing (dbth : DbThing) : Except GoErr Thing :=
  match json_Unmarshal_map dbth.Metadata with
  | .error e => .error (.wrapped .MalformedEntity e)
  | .ok metadata => .ok ⟨dbth.ID, dbth.Owner, dbth.Name, dbth.Key, metadata⟩

/-- The visible contents of the `things` table. -/
abbrev DBState := List DbThing

/-- A Go slice, which may be nil (`none`) or a list (`some l`); the
variadic `ths ...things.Thing` and the returned `[]things.Thing` are
slices, and the source distinguishes the nil slice from the empty one. -/
abbrev GoSlice (α : Type) := Option (List α)

/-- Outcomes the store produces for the statements `Save` issues:
`BeginTxx`, one `NamedExecContext` per Thing (indexed by position), and
`Commit`.  `none` means the statement succeeds. -/
structure SaveEnv where
  beginErr : Option StoreError
  execResult : Nat → Option StoreError
  commitErr : Option StoreError

/-- Result of a `Save` call: the returned slice, the returned error, and
the visible table contents afterwards. -/
structure SaveResult where
  things : GoSlice Thing
  err : Option GoErr
  dbAfter : DBState
deriving Repr

/-- The error classification inside `Save`'s insert loop (`things.go`
lines 55-66): a `*pq.Error` with an invalid-text or truncation code maps
to `MalformedEntity`, a uniqueness violation to `Conflict`, and
everything else falls through to `CreateEntity`. -/
def saveExecErrMap (se : StoreError) : GoErr :=
  match se with
  | .pq p =>
    if p.codeName = errInvalid ∨ p.codeName = errTruncation then
      .wrapped .MalformedEntity (.store se)
    else if p.codeName = errDuplicate then
      .wrapped .Conflict (.store se)
    else
      .wrapped .CreateEntity (.store se)
  | _ => .wrapped .CreateEntity (.store se)

/-- `toDBThing` mapped over a batch, stopping at the first failure. -/
def toDBList : List Thing → Except GoErr (List DbThing)
  | [] => .ok []
  | t :: ts =>
    match toDBThing t with
    | .error e => .error e
    | .ok d =>
      match toDBList ts with
      | .error e => .error e
      | .ok ds => .ok (d :: ds)

/-- The insert loop of `Save` (`things.go` lines 48-68): encode each
Thing (an encode failure returns wrapped with `ErrCreateEntity`), then
execute the insert; an exec failure rolls back and returns the
classified error.  The rows successfully inserted inside the open
transaction are returned for `Commit` to publish. -/
def saveLoop (env : SaveEnv) (i : Nat) : List Thing → Except GoErr (List DbThing)
  | [] => .ok []
  | th :: rest =>
    match toDBThing th with
    | .error e => .error (.wrapped .CreateEntity e)
    | .ok dbth =>
      match env.execResult i with
      | some se => .error (saveExecErrMap se)
      | none =>
        match saveLoop env (i + 1) rest with
        | .error e => .error e
        | .ok rows => .ok (dbth :: rows)

/-- `Save` (`things.go` lines 39-75).  All inserts run inside one
transaction; rows become visible only through `Commit`, so on any
failure (begin, encode, exec, commit) the visible state is unchanged.
On every failure path the source returns the empty (non-nil) slice
`[]things.Thing\x7b\x7d`; on success it returns `ths` unchanged. -/
def Save (env : SaveEnv) (db : DBState) (ths : GoSlice Thing) : SaveResult :=
  match env.beginErr with
  | some se => ⟨some [], some (.wrapped .CreateEntity (.store se)), db⟩
  | none =>
    match saveLoop env 0 (ths.getD []) with
    | .error e => ⟨some [], some e, db⟩
    | .ok rows =>
      match env.commitErr with
      | some se => ⟨some [], some (.wrapped .CreateEntity (.store se)), db⟩
      | none => ⟨ths, none, db ++ rows⟩

/-- Outcomes the store produces for a single `NamedExecContext` followed
by `RowsAffected`: the exec error (if any), and the pair
`(cnt, err)` that `res.RowsAffected()` returns. -/
structure ExecEnv where
  execErr : Option StoreError
  rowsAffected : Nat
  rowsAffectedErr : Option StoreError

/-- `Update` (`things.go` lines 77-108).  Encode failure is wrapped with
`ErrUpdateEntity`; a `*pq.Error` with invalid-text or truncation code
maps to `MalformedEntity`, any other exec error to `UpdateEntity`.
After a successful exec the source reads
`cnt, errdb := res.RowsAffected()` but the guard that follows tests the
stale `err` from `toDBThing` — necessarily nil on this path — so
`errdb` is never reported and control always reaches the `cnt == 0`
check, which returns `things.ErrNotFound`. -/
def Update (env : ExecEnv) (t : Thing) : Option GoErr :=
  match toDBThing t with
  | .error e => some (.wrapped .UpdateEntity e)
  | .ok _ =>
    match env.execErr with
    | some se =>
      match se with
      | .pq p =>
        if p.codeName = errInvalid ∨ p.codeName = errTruncation then
          some (.wrapped .MalformedEntity (.store se))
        else
          some (.wrapped .UpdateEntity (.store se))
      | _ => some (.wrapped .UpdateEntity (.store se))
    | none =>
      if env.rowsAffected = 0 then some (.bareKind .NotFound) else none

/-- `UpdateKey` (`things.go` lines 110-144).  Only the invalid-text code
maps to `MalformedEntity` (truncation is not in the switch), a
uniqueness violation maps to `Conflict`, everything else to
`UpdateEntity`; here the `RowsAffected` error is checked correctly and
wrapped with `ErrUpdateEntity`, then `cnt == 0` yields
`things.ErrNotFound`. -/
def UpdateKey (env : ExecEnv) (owner id key : String) : Option GoErr :=
  match env.execErr with
  | some se =>
    match se with
    | .pq p =>
      if p.codeName = errInvalid then
        some (.wrapped .MalformedEntity (.store se))
      else if p.codeName = errDuplicate then
        some (.wrapped .Conflict (.store se))
      else
        some (.wrapped .UpdateEntity (.store se))
    | _ => some (.wrapped .UpdateEntity (.store se))
  | none =>
    match env.rowsAffectedErr with
    | some se => some (.wrapped .UpdateEntity (.store se))
    | none =>
      if env.rowsAffected = 0 then some (.bareKind .NotFound) else none

/-- What `StructScan` fills for `RetrieveByID`'s query
`SELECT name, key, metadata FROM things WHERE id = $1 AND owner = $2`. -/
structure ScanNKM where
  Name : String
  Key : String
  Metadata : DBMeta
deriving Repr

/-- The outcome the store produces for `RetrieveByID`'s single-row
query: either a scanned row or a store error (`sql.ErrNoRows` when no
row matches). -/
structure QueryEnv where
  queryResult : Except StoreError ScanNKM

/-- `RetrieveByID` (`things.go` lines 146-163).  The id is NOT
pre-validated: the query always runs, and only `sql.ErrNoRows` or a
`*pq.Error` with the invalid-text-representation code (the store-level
type error a malformed id produces) are mapped to `NotFound`; any other
store error maps to `SelectEntity`, and a scanned row goes through
`toThing`, whose decode failure surfaces as `MalformedEntity`. -/
instance (err : StoreError) :
    Decidable (err = .noRows ∨ (∃ p, err = .pq p ∧ p.codeName = errInvalid)) := by
  cases err with
  | pq p =>
    by_cases h : p.codeName = errInvalid
    · exact .isTrue (Or.inr ⟨p, rfl, h⟩)
    · exact .isFalse (by rintro (hc | ⟨q, hq, hcode⟩) <;> simp_all)
  | noRows => exact .isTrue (Or.inl rfl)
  | other t => exact .isFalse (by rintro (hc | ⟨q, hq, hcode⟩) <;> simp_all)

def RetrieveByID (env : QueryEnv) (owner id : String) : Except GoErr Thing :=
  match env.queryResult with
  | .error err =>
    if err = .noRows ∨ (∃ p, err = .pq p ∧ p.codeName = errInvalid) then
      .error (.wrapped .NotFound (.store err))
    else
      .error (.wrapped .SelectEntity (.store err))
  | .ok r => toThing ⟨id, owner, r.Name, r.Key, r.Metadata⟩

/-- What `StructScan` fills for the listing queries
(`SELECT id, name, key, metadata ...`). -/
structure ScanINKM where
  ID : String
  Name : String
  Key : String
  Metadata : DBMeta
deriving Repr

/-- Outcomes the store produces for `RetrieveAll`: the page query may
fail; otherwise each cursor step either scans a row or fails; finally
the count query returns the total or fails. -/
structure AllEnv where
  queryErr : Option StoreError
  rows : List (Except StoreError ScanINKM)
  countResult : Except StoreError Nat

/-- Modelled from the spec: `getMetadataQuery` lives in another file of
the `postgres` package (not under src/).  Per section 4.2, an empty
mapping produces a neutral fragment, otherwise the mapping is encoded
via the metadata codec (section 4.1) and an encode failure fails with
the codec's `MalformedEntity` error. -/
def getMetadataQuery (tm : Option MetaMap) : Except GoErr (DBMeta × String) :=
  if metaLen tm = 0 then .ok (.nilBytes, "")
  else
    match json_Marshal (tm.getD []) with
    | .error e => .error (.wrapped .MalformedEntity e)
    | .ok b => .ok (b, " AND metadata @> :metadata")

/-- Modelled from the spec: `getNameQuery` lives in another file of the
`postgres` package (not under src/).  Per section 4.2, an empty name
produces a neutral fragment, otherwise a substring/prefix pattern; it
cannot fail. -/
def getNameQuery (name : String) : String × String :=
  if name = "" then ("", name) else (" AND name LIKE :name", name ++ "%")

/-- `PageMetadata`. -/
structure PageMetadata where
  Total : Nat
  Offset : Nat
  Limit : Nat
deriving Repr, DecidableEq

/-- `things.Page`. -/
structure Page where
  Things : List Thing
  Meta : PageMetadata
deriving Repr

/-- The row loop of `RetrieveAll` (`things.go` lines 204-216): a scan
failure is wrapped with `ErrSelectEntity`, a `toThing` decode failure
with `ErrViewEntity`. -/
def processRows (owner : String) : List (Except StoreError ScanINKM) → Except GoErr (List Thing)
  | [] => .ok []
  | .error se :: _ => .error (.wrapped .SelectEntity (.store se))
  | .ok r :: rest =>
    match toThing ⟨r.ID, owner, r.Name, r.Key, r.Metadata⟩ with
    | .error e => .error (.wrapped .ViewEntity e)
    | .ok th =>
      match processRows owner rest with
      | .error e => .error e
      | .ok ths => .ok (th :: ths)

/-- `RetrieveAll` (`things.go` lines 179-235): a metadata-filter encode
failure, the page-query failure, a row-scan failure and a count-query
failure are all wrapped with `ErrSelectEntity`; a stored-metadata decode
failure inside the row loop is wrapped with `ErrViewEntity`. -/
def RetrieveAll (env : AllEnv) (owner : String) (offset limit : Nat)
    (name : String) (tm : Option MetaMap) : Except GoErr Page :=
  match getMetadataQuery tm with
  | .error e => .error (.wrapped .SelectEntity e)
  | .ok _ =>
    match env.queryErr with
    | some se => .error (.wrapped .SelectEntity (.store se))
    | none =>
      match processRows owner env.rows with
      | .error e => .error e
      | .ok items =>
        match env.countResult with
        | .error se => .error (.wrapped .SelectEntity (.store se))
        | .ok total => .ok ⟨items, ⟨total, offset, limit⟩⟩

/-- `Remove` (`things.go` lines 324-334): one DELETE scoped by
`(id, owner)`; an exec failure is wrapped with `ErrRemoveEntity`, and a
successful exec — matching rows or not — returns nil. -/
def Remove (env : Option StoreError) (db : DBState) (owner id : String) :
    Option GoErr × DBState :=
  match env with
  | some se => (some (.wrapped .RemoveEntity (.store se)), db)
  | none => (none, db.filter (fun r => !(r.ID == id && r.Owner == owner)))

/-! ## Helper lemmas -/

theorem encodeMetadata_ok {th : Thing} {b : DBMeta} (h : encodeMetadata th = .ok b) :
    ∃ fs, b = .json (.jobj fs) ∧
      (metaLen th.Metadata = 0 → fs = []) ∧
      (∀ m, th.Metadata = some m → m ≠ [] → fs = m) := by
  unfold encodeMetadata at h
  by_cases hm : metaLen th.Metadata > 0
  · rw [if_pos hm] at h
    cases hj : json_Marshal (th.Metadata.getD []) with
    | error e => rw [hj] at h; cases h
    | ok v =>
      rw [hj] at h
      cases h
      unfold json_Marshal at hj
      by_cases hs : jsonSerializableFields (th.Metadata.getD [])
      · rw [if_pos hs] at hj
        cases hj
        refine ⟨th.Metadata.getD [], rfl, ?_, ?_⟩
        · intro h0; omega
        · intro m hm' _; rw [hm']; rfl
      · rw [if_neg hs] at hj; cases hj
  · rw [if_neg hm] at h
    cases h
    refine ⟨[], rfl, fun _ => rfl, ?_⟩
    intro m hm' hne
    exfalso
    apply hne
    have : metaLen th.Metadata = 0 := by omega
    rw [hm'] at this
    simpa [metaLen] using this

theorem toDBThing_ok {th : Thing} {d : DbThing} (h : toDBThing th = .ok d) :
    ∃ b, encodeMetadata th = .ok b ∧ d = ⟨th.ID, th.Owner, th.Name, th.Key, b⟩ := by
  unfold toDBThing at h
  cases he : encodeMetadata th with
  | error e => rw [he] at h; cases h
  | ok b => rw [he] at h; cases h; exact ⟨b, rfl, rfl⟩

theorem toDBThing_metadata_obj {th : Thing} {d : DbThing} (h : toDBThing th = .ok d) :
    ∃ fs, d.Metadata = .json (.jobj fs) := by
  obtain ⟨b, hb, hd⟩ := toDBThing_ok h
  obtain ⟨fs, hfs, -, -⟩ := encodeMetadata_ok hb
  exact ⟨fs, by rw [hd, hfs]⟩

theorem saveLoop_ok_toDBList {env : SaveEnv} :
    ∀ {ths : List Thing} {i : Nat} {rows : List DbThing},
      saveLoop env i ths = .ok rows → toDBList ths = .ok rows := by
  intro ths
  induction ths with
  | nil =>
    intro i rows h
    unfold saveLoop at h
    cases h
    rfl
  | cons t ts ih =>
    intro i rows h
    unfold saveLoop at h
    cases hd : toDBThing t with
    | error e => rw [hd] at h; cases h
    | ok d =>
      rw [hd] at h
      cases he : env.execResult i with
      | some se => rw [he] at h; cases h
      | none =>
        rw [he] at h
        cases hl : saveLoop env (i + 1) ts with
        | error e => rw [hl] at h; cases h
        | ok rs =>
          rw [hl] at h
          cases h
          unfold toDBList
          rw [hd, ih hl]

theorem saveLoop_ok_rows_from_toDBThing {env : SaveEnv} :
    ∀ {ths : List Thing} {i : Nat} {rows : List DbThing},
      saveLoop env i ths = .ok rows → ∀ r ∈ rows, ∃ th, toDBThing th = .ok r := by
  intro ths
  induction ths with
  | nil =>
    intro i rows h
    unfold saveLoop at h
    cases h
    intro r hr
    cases hr
  | cons t ts ih =>
    intro i rows h
    unfold saveLoop at h
    cases hd : toDBThing t with
    | error e => rw [hd] at h; cases h
    | ok d =>
      rw [hd] at h
      cases he : env.execResult i with
      | some se => rw [he] at h; cases h
      | none =>
        rw [he] at h
        cases hl : saveLoop env (i + 1) ts with
        | error e => rw [hl] at h; cases h
        | ok rs =>
          rw [hl] at h
          cases h
          intro r hr
          rcases List.mem_cons.mp hr with hr | hr
          · exact ⟨t, by rw [hd, hr]⟩
          · exact ih hl r hr

/-- The error-kind mapping claimed for `Save`, as a function of the
failure's cause: a `*pq.Error` with invalid-text or truncation code is
`MalformedEntity`, a uniqueness violation is `Conflict`, and every other
cause — any other store error, or a metadata-encode failure — is
`CreateEntity`. -/
def saveClaimKind : GoErr → ErrKind
  | .store (.pq p) =>
    if p.codeName = errInvalid ∨ p.codeName = errTruncation then .MalformedEntity
    else if p.codeName = errDuplicate then .Conflict
    else .CreateEntity
  | _ => .CreateEntity

theorem saveExecErrMap_eq (se : StoreError) :
    saveExecErrMap se = .wrapped (saveClaimKind (.store se)) (.store se) := by
  cases se with
  | pq p =>
    by_cases h1 : p.codeName = errInvalid ∨ p.codeName = errTruncation
    · simp [saveExecErrMap, saveClaimKind, h1]
    · by_cases h2 : p.codeName = errDuplicate
      · simp [saveExecErrMap, saveClaimKind, h1, h2, errDuplicate, errInvalid, errTruncation]
      · simp [saveExecErrMap, saveClaimKind, h1, h2]
  | noRows => rfl
  | other t => rfl

theorem saveLoop_error_shape {env : SaveEnv} :
    ∀ {ths : List Thing} {i : Nat} {e : GoErr},
      saveLoop env i ths = .error e → ∃ c, e = .wrapped (saveClaimKind c) c := by
  intro ths
  induction ths with
  | nil =>
    intro i e h
    unfold saveLoop at h
    cases h
  | cons t ts ih =>
    intro i e h
    unfold saveLoop at h
    cases hd : toDBThing t with
    | error e' =>
      rw [hd] at h
      cases h
      unfold toDBThing at hd
      cases he : encodeMetadata t with
      | error e2 =>
        rw [he] at hd
        cases hd
        unfold encodeMetadata at he
        by_cases hm : metaLen t.Metadata > 0
        · rw [if_pos hm] at he
          cases hj : json_Marshal (t.Metadata.getD []) with
          | error e3 =>
            rw [hj] at he
            cases he
            exact ⟨.wrapped .MalformedEntity e3, rfl⟩
          | ok b => rw [hj] at he; cases he
        · rw [if_neg hm] at he; cases he
      | ok b => rw [he] at hd; cases hd
    | ok d =>
      rw [hd] at h
      cases hx : env.execResult i with
      | some se =>
        rw [hx] at h
        cases h
        exact ⟨.store se, saveExecErrMap_eq se⟩
      | none =>
        rw [hx] at h
        cases hl : saveLoop env (i + 1) ts with
        | error e' =>
          rw [hl] at h
          cases h
          exact ih hl
        | ok rs => rw [hl] at h; cases h

/-- The realistic restriction on `BeginTxx`/`Commit` failures: with the
immediate (non-deferred) uniqueness constraints of the `things` schema,
the store raises invalid-text, truncation and unique-violation errors at
statement execution, not when opening or committing the transaction. -/
def notConstraintCode : Option StoreError → Prop := fun o =>
  ∀ p, o = some (.pq p) →
    p.codeName ≠ errInvalid ∧ p.codeName ≠ errTruncation ∧ p.codeName ≠ errDuplicate

/-- C1: `Save` is all-or-nothing — on any failure (begin, encode, exec,
commit) the visible table is unchanged and no Thing of the call is
visible; on success the table is extended by exactly the encoded rows of
the whole batch and the input Things are returned unchanged. -/
theorem save_all_or_nothing (env : SaveEnv) (db : DBState) (ths : GoSlice Thing) :
    ((Save env db ths).err ≠ none → (Save env db ths).dbAfter = db) ∧
    ((Save env db ths).err = none →
      (Save env db ths).things = ths ∧
      ∃ rows, toDBList (ths.getD []) = .ok rows ∧
        (Save env db ths).dbAfter = db ++ rows) := by
  unfold Save
  cases hb : env.beginErr with
  | some se => exact ⟨fun _ => rfl, fun h => by cases h⟩
  | none =>
    cases hl : saveLoop env 0 (ths.getD []) with
    | error e => exact ⟨fun _ => rfl, fun h => by cases h⟩
    | ok rows =>
      cases hc : env.commitErr with
      | some se => exact ⟨fun _ => rfl, fun h => by cases h⟩
      | none =>
        refine ⟨fun h => absurd rfl h, fun _ => ⟨rfl, rows, saveLoop_ok_toDBList hl, rfl⟩⟩

/-- Witness for C1: the spec scenario `Save(T1, T2)` with `T2.ID =
T1.ID` — the store reports a uniqueness violation on the second insert —
leaves the table unchanged: `T1` is not visible afterwards. -/
theorem save_all_or_nothing_witness :
    (Save ⟨none, fun n => if n = 0 then none else some (.pq ⟨errDuplicate⟩), none⟩ []
        (some [⟨"id1", "own", "", "key1", none⟩, ⟨"id1", "own", "", "key2", none⟩])).dbAfter
      = [] :=
  (save_all_or_nothing _ _ _).1 (by decide)

/-- C2: every error `Save` returns is its cause wrapped with the kind
the claim assigns to that cause — `MalformedEntity` for an
invalid-text/truncation store rejection, `Conflict` for a uniqueness
violation, `CreateEntity` for everything else including a
metadata-encode failure — given that begin/commit failures do not carry
the constraint-violation codes (the schema's constraints are checked at
statement execution). -/
theorem save_error_kinds (env : SaveEnv) (db : DBState) (ths : GoSlice Thing)
    (e : GoErr) (hb : notConstraintCode env.beginErr)
    (hc : notConstraintCode env.commitErr) (he : (Save env db ths).err = some e) :
    ∃ c, e = .wrapped (saveClaimKind c) c := by
  unfold Save at he
  cases hbe : env.beginErr with
  | some se =>
    rw [hbe] at he
    cases he
    refine ⟨.store se, ?_⟩
    cases se with
    | pq p =>
      obtain ⟨h1, h2, h3⟩ := hb p (by rw [hbe])
      simp [saveClaimKind, h1, h2, h3]
    | noRows => rfl
    | other t => rfl
  | none =>
    rw [hbe] at he
    cases hl : saveLoop env 0 (ths.getD []) with
    | error e' =>
      rw [hl] at he
      cases he
      exact saveLoop_error_shape hl
    | ok rows =>
      rw [hl] at he
      cases hce : env.commitErr with
      | some se =>
        rw [hce] at he
        cases he
        refine ⟨.store se, ?_⟩
        cases se with
        | pq p =>
          obtain ⟨h1, h2, h3⟩ := hc p (by rw [hce])
          simp [saveClaimKind, h1, h2, h3]
        | noRows => rfl
        | other t => rfl
      | none => rw [hce] at he; cases he

/-- Witness for C2: a duplicate-ID insert rejection is returned wrapped
as `Conflict`. -/
theorem save_error_kinds_witness :
    ∃ c, GoErr.wrapped .Conflict (.store (.pq ⟨errDuplicate⟩)) =
      .wrapped (saveClaimKind c) c :=
  save_error_kinds ⟨none, fun _ => some (.pq ⟨errDuplicate⟩), none⟩ []
    (some [⟨"id1", "own", "", "key1", none⟩]) _
    (fun p h => by cases h) (fun p h => by cases h) (by decide)

/-- C9: on every failure path `Save` returns the empty, non-nil slice —
never a partial prefix — and a returned non-empty slice implies the
whole batch was committed: no error, and the table extended by the
encoded rows of every Thing of the call. -/
theorem save_failure_returns_empty (env : SaveEnv) (db : DBState) (ths : GoSlice Thing) :
    (∀ e, (Save env db ths).err = some e → (Save env db ths).things = some []) ∧
    (∀ l, (Save env db ths).things = some l → l ≠ [] →
      (Save env db ths).err = none ∧
      ∃ rows, toDBList l = .ok rows ∧ (Save env db ths).dbAfter = db ++ rows) := by
  unfold Save
  cases hb : env.beginErr with
  | some se =>
    exact ⟨fun _ _ => rfl, fun l hl hne => absurd (by cases hl; rfl) hne⟩
  | none =>
    cases hl : saveLoop env 0 (ths.getD []) with
    | error e =>
      exact ⟨fun _ _ => rfl, fun l hl' hne => absurd (by cases hl'; rfl) hne⟩
    | ok rows =>
      cases hc : env.commitErr with
      | some se =>
        exact ⟨fun _ _ => rfl, fun l hl' hne => absurd (by cases hl'; rfl) hne⟩
      | none =>
        constructor
        · intro e he
          cases he
        · intro l hl' hne
          have hgd : ths.getD [] = l := by
            cases ths with
            | none => cases hl'
            | some l' => cases hl'; rfl
          exact ⟨rfl, rows, by rw [← hgd]; exact saveLoop_ok_toDBList hl, rfl⟩

/-- Witness for C9: a `Save` whose single insert fails returns the
empty slice. -/
theorem save_failure_returns_empty_witness :
    (Save ⟨none, fun _ => some (.other "connection reset"), none⟩ []
        (some [⟨"id9", "own", "", "key9", none⟩])).things = some [] :=
  (save_failure_returns_empty _ _ _).1
    (.wrapped .CreateEntity (.store (.other "connection reset"))) (by decide)

/-- An `ExecEnv` whose single statement execution fails with `se`. -/
def execFail (se : StoreError) : ExecEnv := ⟨some se, 0, none⟩

/-- A `SaveEnv` whose inserts all fail with `se` (begin and commit
succeed). -/
def saveExecFail (se : StoreError) : SaveEnv := ⟨none, fun _ => some se, none⟩

/-- The outermost domain kind of an optional returned error. -/
def errKind (o : Option GoErr) : Option ErrKind := o.bind GoErr.kind

/-- Counterexample to C3: `UpdateKey` does not map a
string-truncation store error to `MalformedEntity` — its switch only
covers the invalid-text and unique-violation codes, so truncation falls
into the generic `UpdateEntity` bucket. -/
theorem updateKey_truncation_not_malformed :
    UpdateKey (execFail (.pq ⟨errTruncation⟩)) "own" "id" "key"
      = some (.wrapped .UpdateEntity (.store (.pq ⟨errTruncation⟩))) ∧
    errKind (UpdateKey (execFail (.pq ⟨errTruncation⟩)) "own" "id" "key")
      ≠ some .MalformedEntity := by
  constructor
  · decide
  · decide

/-- C3 (amended): the store-error mapping of the write operations is
total — every store error lands in a bucket — and uniform for `Save` and
`Update`, which both map invalid-text and truncation codes to
`MalformedEntity`; but `UpdateKey` classifies only the invalid-text code
as `MalformedEntity` and sends truncation to its generic `UpdateEntity`
bucket; for all three, every unclassified store error lands in the
operation's generic bucket. -/
theorem write_error_mapping_amended (se : StoreError) (t : Thing) (db : DBState)
    (o i k : String) (ht : metaLen t.Metadata = 0) :
    ((∃ p, se = .pq p ∧ (p.codeName = errInvalid ∨ p.codeName = errTruncation)) →
      errKind (Save (saveExecFail se) db (some [t])).err = some .MalformedEntity ∧
      errKind (Update (execFail se) t) = some .MalformedEntity) ∧
    ((∃ p, se = .pq p ∧ p.codeName = errInvalid) →
      errKind (UpdateKey (execFail se) o i k) = some .MalformedEntity) ∧
    ((∃ p, se = .pq p ∧ p.codeName = errTruncation) →
      errKind (UpdateKey (execFail se) o i k) = some .UpdateEntity) ∧
    ((∀ p, se = .pq p →
        p.codeName ≠ errInvalid ∧ p.codeName ≠ errTruncation ∧ p.codeName ≠ errDuplicate) →
      errKind (Save (saveExecFail se) db (some [t])).err = some .CreateEntity ∧
      errKind (Update (execFail se) t) = some .UpdateEntity ∧
      errKind (UpdateKey (execFail se) o i k) = some .UpdateEntity) := by
  have htd : toDBThing t = .ok ⟨t.ID, t.Owner, t.Name, t.Key, .json (.jobj [])⟩ := by
    unfold toDBThing encodeMetadata
    rw [ht]
    simp
  have hSave : (Save (saveExecFail se) db (some [t])).err = some (saveExecErrMap se) := by
    simp [Save, saveLoop, saveExecFail, htd]
  refine ⟨?_, ?_, ?_, ?_⟩
  · rintro ⟨p, rfl, hcode⟩
    constructor
    · rw [hSave]
      simp [saveExecErrMap, hcode, errKind, GoErr.kind]
    · simp [Update, htd, execFail, hcode, errKind, GoErr.kind]
  · rintro ⟨p, rfl, hcode⟩
    simp [UpdateKey, execFail, hcode, errKind, GoErr.kind]
  · rintro ⟨p, rfl, hcode⟩
    have h1 : p.codeName ≠ errInvalid := by
      rw [hcode]; decide
    have h2 : p.codeName ≠ errDuplicate := by
      rw [hcode]; decide
    simp [UpdateKey, execFail, h1, h2, errKind, GoErr.kind]
  · intro hun
    cases se with
    | pq p =>
      obtain ⟨h1, h2, h3⟩ := hun p rfl
      refine ⟨?_, ?_, ?_⟩
      · rw [hSave]
        simp [saveExecErrMap, h1, h2, h3, errKind, GoErr.kind]
      · simp [Update, htd, execFail, h1, h2, errKind, GoErr.kind]
      · simp [UpdateKey, execFail, h1, h3, errKind, GoErr.kind]
    | noRows =>
      refine ⟨?_, ?_, ?_⟩
      · rw [hSave]; rfl
      · simp [Update, htd, execFail, errKind, GoErr.kind]
      · rfl
    | other tag =>
      refine ⟨?_, ?_, ?_⟩
      · rw [hSave]; rfl
      · simp [Update, htd, execFail, errKind, GoErr.kind]
      · rfl

/-- Witness for C3 (amended): an invalid-text-representation failure on
`UpdateKey` is reported as `MalformedEntity`. -/
theorem write_error_mapping_amended_witness :
    errKind (UpdateKey (execFail (.pq ⟨errInvalid⟩)) "own" "id" "key")
      = some .MalformedEntity :=
  (write_error_mapping_amended (.pq ⟨errInvalid⟩) ⟨"i", "o", "n", "k", none⟩ []
    "own" "id" "key" rfl).2.1 ⟨⟨errInvalid⟩, rfl, rfl⟩

/-- C4 evaluated at the failing input (code bug): when the UPDATE
statement executes but `res.RowsAffected()` fails (returning count 0),
`Update` returns `things.ErrNotFound` — the guard after `RowsAffected`
tests the stale `err` from `toDBThing` instead of `errdb`, so the
failure to obtain the affected-row count is never reported as
`UpdateEntity` as the spec requires, and `NotFound` is returned without
zero rows having been established. -/
theorem update_rows_affected_error_not_found :
    Update ⟨none, 0, some (.other "rows affected unavailable")⟩
        ⟨"id4", "own", "name", "key4", none⟩
      = some (.bareKind .NotFound) ∧
    errKind (Update ⟨none, 0, some (.other "rows affected unavailable")⟩
        ⟨"id4", "own", "name", "key4", none⟩) ≠ some .UpdateEntity := by
  constructor
  · decide
  · decide

/-- Modelled from the spec: a "well-formed identifier" is a canonical
UUID string, one `uuid.FromString` accepts; the uuid package is not
under src/, and the source applies this validation only in
`RetrieveByChannel` (`things.go` lines 238-241). -/
def isHexDigit (c : Char) : Bool :=
  c.isDigit || ('a' ≤ c && c ≤ 'f') || ('A' ≤ c && c ≤ 'F')

/-- Modelled from the spec: canonical UUID well-formedness
(8-4-4-4-12 hex digits separated by hyphens). -/
def isValidUUID (s : String) : Bool :=
  s.length == 36 &&
  (s.toList.enum.all fun p =>
    if p.1 == 8 || p.1 == 13 || p.1 == 18 || p.1 == 23 then p.2 == '-'
    else isHexDigit p.2)

theorem retrieveByID_eq_of_error (env : QueryEnv) (o i : String) (err : StoreError)
    (h : env.queryResult = .error err) :
    RetrieveByID env o i =
      if err = .noRows ∨ (∃ p, err = .pq p ∧ p.codeName = errInvalid) then
        .error (.wrapped .NotFound (.store err))
      else .error (.wrapped .SelectEntity (.store err)) := by
  unfold RetrieveByID
  rw [h]

theorem retrieveByID_eq_of_ok (env : QueryEnv) (o i : String) (r : ScanNKM)
    (h : env.queryResult = .ok r) :
    RetrieveByID env o i = toThing ⟨i, o, r.Name, r.Key, r.Metadata⟩ := by
  unfold RetrieveByID
  rw [h]

/-- Counterexample to C5: the id is NOT validated before the store is
queried.  With the malformed id `"not-a-uuid"` the query still runs; if
the store fails with anything other than the invalid-text code (here a
connection failure), the result is `SelectEntity`, not the `NotFound`
pre-validation would guarantee.  And on a row whose stored metadata
fails to decode, `RetrieveByID` returns `MalformedEntity`, not the
`SelectEntity` the claim assigns to every non-`NotFound` failure. -/
theorem retrieveByID_not_prevalidated :
    isValidUUID "not-a-uuid" = false ∧
    RetrieveByID ⟨.error (.other "connection refused")⟩ "own" "not-a-uuid"
      = .error (.wrapped .SelectEntity (.store (.other "connection refused"))) ∧
    ErrKind.SelectEntity ≠ ErrKind.NotFound ∧
    isValidUUID "00000000-0000-0000-0000-000000000000" = true ∧
    RetrieveByID ⟨.ok ⟨"nm", "ky", .json (.jarr [])⟩⟩ "own"
        "00000000-0000-0000-0000-000000000000"
      = .error (.wrapped .MalformedEntity .decodeFail) ∧
    ErrKind.MalformedEntity ≠ ErrKind.SelectEntity := by
  refine ⟨by decide, ?_, by decide, by decide, ?_, by decide⟩
  · rw [retrieveByID_eq_of_error _ _ _ _ rfl, if_neg]
    rintro (hc | ⟨p, hp, -⟩)
    · cases hc
    · cases hp
  · rw [retrieveByID_eq_of_ok _ _ _ _ rfl]
    rfl

/-- C5 (amended): `RetrieveByID` always queries the store (no
pre-validation of the id); it fails with `NotFound` when the store
reports no rows or the invalid-text-representation code (the store-level
type error a malformed id produces, classified after the query), with
`SelectEntity` on any other store failure, and with `MalformedEntity`
when the returned row's stored metadata fails to decode; a scanned row
is returned through `toThing` with `ID`/`Owner` taken from the
arguments. -/
theorem retrieveByID_error_kinds_amended (env : QueryEnv) (o i : String) :
    (env.queryResult = .error .noRows →
      RetrieveByID env o i = .error (.wrapped .NotFound (.store .noRows))) ∧
    (∀ p, env.queryResult = .error (.pq p) → p.codeName = errInvalid →
      RetrieveByID env o i = .error (.wrapped .NotFound (.store (.pq p)))) ∧
    (∀ se, env.queryResult = .error se → se ≠ .noRows →
      (∀ p, se = .pq p → p.codeName ≠ errInvalid) →
      RetrieveByID env o i = .error (.wrapped .SelectEntity (.store se))) ∧
    (∀ r, env.queryResult = .ok r →
      RetrieveByID env o i = toThing ⟨i, o, r.Name, r.Key, r.Metadata⟩) ∧
    (∀ r e, env.queryResult = .ok r → json_Unmarshal_map r.Metadata = .error e →
      RetrieveByID env o i = .error (.wrapped .MalformedEntity e)) := by
  refine ⟨?_, ?_, ?_, ?_, ?_⟩
  · intro h
    rw [retrieveByID_eq_of_error _ _ _ _ h, if_pos (Or.inl rfl)]
  · intro p h hc
    rw [retrieveByID_eq_of_error _ _ _ _ h, if_pos (Or.inr ⟨p, rfl, hc⟩)]
  · intro se h hnr hnp
    rw [retrieveByID_eq_of_error _ _ _ _ h, if_neg]
    rintro (hc | ⟨p, hp, hcode⟩)
    · exact hnr hc
    · exact hnp p hp hcode
  · intro r h
    exact retrieveByID_eq_of_ok _ _ _ _ h
  · intro r e h hj
    rw [retrieveByID_eq_of_ok _ _ _ _ h]
    unfold toThing
    rw [hj]

/-- Witness for C5 (amended): a no-rows result maps to `NotFound`. -/
theorem retrieveByID_error_kinds_amended_witness :
    RetrieveByID ⟨.error .noRows⟩ "own" "some-id"
      = .error (.wrapped .NotFound (.store .noRows)) :=
  (retrieveByID_error_kinds_amended ⟨.error .noRows⟩ "own" "some-id").1 rfl

/-- Counterexample to C6: a stored metadata value that fails to decode
makes `RetrieveAll` fail with `ViewEntity`, not `SelectEntity`. -/
theorem retrieveAll_decode_failure_not_select :
    RetrieveAll ⟨none, [.ok ⟨"id6", "nm", "ky", .malformed⟩], .ok 1⟩ "own" 0 10 "" none
      = .error (.wrapped .ViewEntity (.wrapped .MalformedEntity .decodeFail)) ∧
    errKind (some (.wrapped .ViewEntity (.wrapped .MalformedEntity .decodeFail)))
      ≠ some .SelectEntity := by
  exact ⟨rfl, by decide⟩

theorem processRows_error_shape {o : String} :
    ∀ {rs : List (Except StoreError ScanINKM)} {e : GoErr},
      processRows o rs = .error e →
      e.kind = some .SelectEntity ∨
      ∃ d, e = .wrapped .ViewEntity (.wrapped .MalformedEntity d) := by
  intro rs
  induction rs with
  | nil =>
    intro e h
    unfold processRows at h
    cases h
  | cons r rest ih =>
    intro e h
    cases r with
    | error se =>
      unfold processRows at h
      cases h
      left
      rfl
    | ok row =>
      unfold processRows at h
      cases htt : toThing ⟨row.ID, o, row.Name, row.Key, row.Metadata⟩ with
      | error e' =>
        rw [htt] at h
        cases h
        right
        unfold toThing at htt
        cases hj : json_Unmarshal_map row.Metadata with
        | error e2 =>
          rw [hj] at htt
          cases htt
          exact ⟨e2, rfl⟩
        | ok m => rw [hj] at htt; cases htt
      | ok th =>
        rw [htt] at h
        cases hrest : processRows o rest with
        | error e2 =>
          rw [hrest] at h
          cases h
          exact ih hrest
        | ok l => rw [hrest] at h; cases h

/-- C6 (amended): every `RetrieveAll` failure — metadata-filter
encoding, the page query, a row scan, the count query — is
`SelectEntity`, except a stored metadata value that fails to decode,
which is returned as `ViewEntity` wrapping the codec's
`MalformedEntity` error. -/
theorem retrieveAll_error_kinds_amended (env : AllEnv) (o : String) (off lim : Nat)
    (nm : String) (tm : Option MetaMap) (e : GoErr)
    (h : RetrieveAll env o off lim nm tm = .error e) :
    e.kind = some .SelectEntity ∨
    ∃ d, e = .wrapped .ViewEntity (.wrapped .MalformedEntity d) := by
  unfold RetrieveAll at h
  cases hm : getMetadataQuery tm with
  | error e' =>
    rw [hm] at h
    cases h
    left
    rfl
  | ok pr =>
    rw [hm] at h
    cases hq : env.queryErr with
    | some se =>
      rw [hq] at h
      cases h
      left
      rfl
    | none =>
      rw [hq] at h
      cases hp : processRows o env.rows with
      | error e' =>
        rw [hp] at h
        cases h
        exact processRows_error_shape hp
      | ok items =>
        rw [hp] at h
        cases hc : env.countResult with
        | error se =>
          rw [hc] at h
          cases h
          left
          rfl
        | ok t => rw [hc] at h; cases h

/-- Witness for C6 (amended): a failed page query surfaces as
`SelectEntity`. -/
theorem retrieveAll_error_kinds_amended_witness :
    (GoErr.wrapped .SelectEntity (.store (.other "query timeout"))).kind
        = some .SelectEntity ∨
    ∃ d, GoErr.wrapped .SelectEntity (.store (.other "query timeout"))
        = .wrapped .ViewEntity (.wrapped .MalformedEntity d) :=
  retrieveAll_error_kinds_amended ⟨some (.other "query timeout"), [], .ok 0⟩
    "own" 0 10 "" none _ rfl

/-- C7: `Remove` is idempotent — with no store-execution failure it
succeeds whether or not a row matches, repeating it changes nothing
further, and the only failure it can return is the underlying
store-execution error wrapped as `RemoveEntity`. -/
theorem remove_idempotent (env : Option StoreError) (db : DBState) (o i : String) :
    (env = none → (Remove env db o i).1 = none ∧
      Remove env (Remove env db o i).2 o i = Remove env db o i) ∧
    (∀ e, (Remove env db o i).1 = some e →
      ∃ se, env = some se ∧ e = .wrapped .RemoveEntity (.store se)) := by
  cases env with
  | some se =>
    constructor
    · intro hc
      cases hc
    · intro e he
      refine ⟨se, rfl, ?_⟩
      cases he
      rfl
  | none =>
    constructor
    · intro _
      refine ⟨rfl, ?_⟩
      show (none, _) = (none, _)
      simp only [Remove, List.filter_filter, Prod.mk.injEq, true_and]
      congr 1
      funext r
      exact Bool.and_self _
    · intro e he
      cases he

/-- Witness for C7: removing an id with no matching row succeeds. -/
theorem remove_idempotent_witness :
    (Remove none [⟨"idX", "own", "n", "k", .json (.jobj [])⟩] "own" "missing-id").1
      = none :=
  ((remove_idempotent none [⟨"idX", "own", "n", "k", .json (.jobj [])⟩]
    "own" "missing-id").1 rfl).1

/-- C8: every metadata value `toDBThing` encodes — the value `Save`
inserts and `Update` writes — is a serialized JSON object, never null:
the empty object when the Thing's mapping is empty or absent, the
mapping's canonical serialization otherwise; and every row `Save` makes
visible either pre-existed or carries such an object. -/
theorem metadata_always_serialized_object (th : Thing) (d : DbThing)
    (h : toDBThing th = .ok d) :
    (∃ fs, d.Metadata = .json (.jobj fs)) ∧
    d.Metadata ≠ .json .null ∧
    (metaLen th.Metadata = 0 → d.Metadata = .json (.jobj [])) ∧
    (∀ m, th.Metadata = some m → m ≠ [] → d.Metadata = .json (.jobj m)) ∧
    (∀ env dbs ths, ∀ r ∈ (Save env dbs ths).dbAfter,
      r ∈ dbs ∨ ∃ fs, r.Metadata = .json (.jobj fs)) := by
  obtain ⟨b, hb, hd⟩ := toDBThing_ok h
  obtain ⟨fs, hfs, h0, hsome⟩ := encodeMetadata_ok hb
  have hdm : d.Metadata = .json (.jobj fs) := by rw [hd]; exact hfs
  refine ⟨⟨fs, hdm⟩, by rw [hdm]; simp, fun hz => by rw [hdm, h0 hz],
    fun m hm hne => by rw [hdm, hsome m hm hne], ?_⟩
  intro env dbs ths r hr
  unfold Save at hr
  cases hbe : env.beginErr with
  | some se =>
    rw [hbe] at hr
    exact Or.inl hr
  | none =>
    rw [hbe] at hr
    cases hl : saveLoop env 0 (ths.getD []) with
    | error e' =>
      rw [hl] at hr
      exact Or.inl hr
    | ok rows =>
      rw [hl] at hr
      cases hc : env.commitErr with
      | some se =>
        rw [hc] at hr
        exact Or.inl hr
      | none =>
        rw [hc] at hr
        rcases List.mem_append.mp hr with hr | hr
        · exact Or.inl hr
        · obtain ⟨th', hth'⟩ := saveLoop_ok_rows_from_toDBThing hl r hr
          exact Or.inr (toDBThing_metadata_obj hth')

/-- Witness for C8: a Thing with absent metadata is stored with the
serialized empty object. -/
theorem metadata_always_serialized_object_witness :
    (⟨"id8", "own", "n", "k", .json (.jobj [])⟩ : DbThing).Metadata
      = .json (.jobj []) :=
  (metadata_always_serialized_object ⟨"id8", "own", "n", "k", none⟩ _ rfl).2.2.1 rfl

/-- C10: the Thing/row codec round-trips — for a Thing whose metadata is
JSON-serializable, `toThing` after `toDBThing` succeeds, preserves `ID`,
`Owner`, `Name` and `Key`, preserves a non-empty metadata mapping
exactly, and turns an empty or absent mapping into the empty (non-nil)
mapping. -/
theorem thing_codec_roundtrip (th : Thing)
    (h : ∀ m, th.Metadata = some m → jsonSerializableFields m = true) :
    ∃ d th2, toDBThing th = .ok d ∧ toThing d = .ok th2 ∧
      th2.ID = th.ID ∧ th2.Owner = th.Owner ∧ th2.Name = th.Name ∧
      th2.Key = th.Key ∧ th2.Metadata = some (th.Metadata.getD []) := by
  cases hm : th.Metadata with
  | none =>
    have he : encodeMetadata th = .ok (.json (.jobj [])) := by
      simp [encodeMetadata, hm, metaLen]
    refine ⟨⟨th.ID, th.Owner, th.Name, th.Key, .json (.jobj [])⟩,
      ⟨th.ID, th.Owner, th.Name, th.Key, some []⟩, ?_, rfl, rfl, rfl, rfl, rfl, rfl⟩
    unfold toDBThing
    rw [he]
  | some m =>
    by_cases hnil : m = []
    · subst hnil
      have he : encodeMetadata th = .ok (.json (.jobj [])) := by
        simp [encodeMetadata, hm, metaLen]
      refine ⟨⟨th.ID, th.Owner, th.Name, th.Key, .json (.jobj [])⟩,
        ⟨th.ID, th.Owner, th.Name, th.Key, some []⟩, ?_, rfl, rfl, rfl, rfl, rfl, rfl⟩
      unfold toDBThing
      rw [he]
    · have hser := h m hm
      have hpos : metaLen th.Metadata > 0 := by
        rw [hm]
        simpa [metaLen] using List.length_pos.mpr hnil
      have he : encodeMetadata th = .ok (.json (.jobj m)) := by
        unfold encodeMetadata
        rw [if_pos hpos, hm]
        simp [json_Marshal, hser]
      refine ⟨⟨th.ID, th.Owner, th.Name, th.Key, .json (.jobj m)⟩,
        ⟨th.ID, th.Owner, th.Name, th.Key, some m⟩, ?_, rfl, rfl, rfl, rfl, rfl, ?_⟩
      · unfold toDBThing
        rw [he]
      · rfl

/-- Witness for C10: a Thing carrying one metadata entry round-trips
unchanged. -/
theorem thing_codec_roundtrip_witness :
    ∃ d th2,
      toDBThing ⟨"idr", "own", "nm", "kr", some [("region", .jstr "eu")]⟩ = .ok d ∧
      toThing d = .ok th2 ∧ th2.ID = "idr" ∧ th2.Owner = "own" ∧ th2.Name = "nm" ∧
      th2.Key = "kr" ∧ th2.Metadata = some [("region", .jstr "eu")] :=
  thing_codec_roundtrip ⟨"idr", "own", "nm", "kr", some [("region", .jstr "eu")]⟩
    (fun m hm => by cases hm; rfl)

end Mainflux
